import Mathlib

/-!
Verification of the configuration-loading and logging-setup component of the
repository (src/python/setup.py, src/python/logger_config.py,
src/logger_config.py), against its natural-language specification.

The embedding is shallow:
* a YAML document parsed by `yaml.safe_load` becomes a `ConfigTree`
  (mappings keep Python dict insertion order, sequences keep list order,
  scalars carry the Python values that occur in such configs);
* the process environment `os.environ` becomes an association list
  `Env = List (String × String)` where assignment overwrites the existing
  binding of a key (`setVar`) and lookup returns the bound value (`getVar`);
* `set_env_vars`, `load_config`, `LoggingFilter.filter`, the formatter
  selection of the two `LOGGING_CONFIG` dictionaries, and `set_log_level`
  are translated function by function from the source.
-/

/-- A Python scalar value as it occurs at the leaves of a parsed YAML
config (`yaml.safe_load` produces `str`, `int`, `bool`, `None` for the
scalar shapes relevant here). -/
inductive PyVal where
  | pyStr (s : String)
  | pyInt (n : Int)
  | pyBool (b : Bool)
  | pyNone
deriving DecidableEq, Repr

/-- Python `str(v)` on the scalar values of the model: strings are returned
unchanged, integers print in decimal, `True`/`False` for booleans, `None`
for `None`. -/
def pyStrOf : PyVal → String
  | .pyStr s => s
  | .pyInt n => toString n
  | .pyBool true => "True"
  | .pyBool false => "False"
  | .pyNone => "None"

mutual
/-- A parsed configuration tree: the `data` argument of `set_env_vars`
(src/python/setup.py line 192): a dict, a list, or a scalar. -/
inductive ConfigTree where
  | scalar (v : PyVal)
  | mapping (kvs : EntryList)
  | sequence (xs : TreeList)
deriving DecidableEq, Repr

/-- The key/value entries of a mapping node, in dict insertion order. -/
inductive EntryList where
  | nil
  | cons (key : String) (val : ConfigTree) (rest : EntryList)
deriving DecidableEq, Repr

/-- The elements of a sequence node, in list order. -/
inductive TreeList where
  | nil
  | cons (head : ConfigTree) (rest : TreeList)
deriving DecidableEq, Repr
end

/-- ASCII upper-casing of one character, the effect of Python `str.upper`
on the ASCII config keys this repository uses. -/
def pyUpperChar (c : Char) : Char :=
  if 'a' ≤ c ∧ c ≤ 'z' then Char.ofNat (c.toNat - 32) else c

/-- Python `key.upper()` on a config key (ASCII model). -/
def pyUpper (s : String) : String :=
  ⟨s.data.map pyUpperChar⟩

/-- The process environment `os.environ`: a finite map modelled as an
association list of string keys and string values. -/
abbrev Env := List (String × String)

/-- `os.environ.get(k)`: the value bound to `k`, if any. -/
def getVar : Env → String → Option String
  | [], _ => none
  | (k2, v) :: rest, k => if k2 = k then some v else getVar rest k

/-- `os.environ[k] = v`: overwrite the binding of `k` if present, otherwise
append a new binding. -/
def setVar : Env → String → String → Env
  | [], k, v => [(k, v)]
  | (k2, v2) :: rest, k, v =>
      if k2 = k then (k, v) :: rest else (k2, v2) :: setVar rest k v

/-- The prefix-extension step of `set_env_vars` (src/python/setup.py lines
202 and 206): `f"{prefix}_{comp}" if prefix else comp` — the component is
appended after an underscore, except that an empty running prefix (the root
call) yields the bare component. -/
def extendKey (pre comp : String) : String :=
  if pre = "" then comp else pre ++ "_" ++ comp

mutual
/-- src/python/setup.py lines 192-209, `set_env_vars(data, prefix="")`:
recursively traverses the config, building each environment-variable name
from the path, and sets the variable at each scalar leaf. -/
def set_env_vars : ConfigTree → String → Env → Env
  | .scalar v, pre, env => setVar env pre (pyStrOf v)
  | .mapping kvs, pre, env => setEnvVarsMap kvs pre env
  | .sequence xs, pre, env => setEnvVarsSeq xs pre 0 env

/-- The `for key, value in data.items()` loop of `set_env_vars`: each key
is upper-cased and appended to the running prefix. -/
def setEnvVarsMap : EntryList → String → Env → Env
  | .nil, _, env => env
  | .cons k v rest, pre, env =>
      setEnvVarsMap rest pre (set_env_vars v (extendKey pre (pyUpper k)) env)

/-- The `for index, value in enumerate(data)` loop of `set_env_vars`: each
index is stringified and appended to the running prefix. -/
def setEnvVarsSeq : TreeList → String → Nat → Env → Env
  | .nil, _, _, env => env
  | .cons x rest, pre, i, env =>
      setEnvVarsSeq rest pre (i + 1) (set_env_vars x (extendKey pre (toString i)) env)
end

mutual
/-- The pure flat key/value list produced by `set_env_vars`: the pairs
`(name, str(value))` in the order in which the traversal assigns them. -/
def flatten : ConfigTree → String → List (String × String)
  | .scalar v, pre => [(pre, pyStrOf v)]
  | .mapping kvs, pre => flattenMap kvs pre
  | .sequence xs, pre => flattenSeq xs pre 0

/-- Flat key/value pairs contributed by a mapping node's entries. -/
def flattenMap : EntryList → String → List (String × String)
  | .nil, _ => []
  | .cons k v rest, pre =>
      flatten v (extendKey pre (pyUpper k)) ++ flattenMap rest pre

/-- Flat key/value pairs contributed by a sequence node's elements. -/
def flattenSeq : TreeList → String → Nat → List (String × String)
  | .nil, _, _ => []
  | .cons x rest, pre, i =>
      flatten x (extendKey pre (toString i)) ++ flattenSeq rest pre (i + 1)
end

/-- Write a list of key/value pairs into the environment, left to right. -/
def applyAll (env : Env) (l : List (String × String)) : Env :=
  l.foldl (fun e p => setVar e p.1 p.2) env

theorem getVar_setVar_self (env : Env) (k v : String) :
    getVar (setVar env k v) k = some v := by
  induction env with
  | nil => simp [setVar, getVar]
  | cons p rest ih =>
      obtain ⟨a, b⟩ := p
      by_cases h : a = k
      · simp [setVar, h, getVar]
      · simp [setVar, h, getVar, ih]

theorem getVar_setVar_ne (env : Env) (k v k2 : String) (h : k2 ≠ k) :
    getVar (setVar env k v) k2 = getVar env k2 := by
  induction env with
  | nil => simp [setVar, getVar, Ne.symm h]
  | cons p rest ih =>
      obtain ⟨a, b⟩ := p
      by_cases ha : a = k
      · subst ha
        simp [setVar, getVar, Ne.symm h]
      · by_cases ha2 : a = k2
        · subst ha2
          simp [setVar, getVar, ha]
        · simp [setVar, getVar, ha, ha2, ih]

theorem applyAll_cons (env : Env) (p : String × String) (l : List (String × String)) :
    applyAll env (p :: l) = applyAll (setVar env p.1 p.2) l := rfl

theorem applyAll_append (env : Env) (l1 l2 : List (String × String)) :
    applyAll env (l1 ++ l2) = applyAll (applyAll env l1) l2 := by
  simp [applyAll, List.foldl_append]

theorem getVar_applyAll_not_mem (l : List (String × String)) (env : Env) (k : String)
    (h : k ∉ l.map Prod.fst) : getVar (applyAll env l) k = getVar env k := by
  induction l generalizing env with
  | nil => rfl
  | cons p rest ih =>
      simp only [List.map_cons, List.mem_cons, not_or] at h
      rw [applyAll_cons, ih _ h.2, getVar_setVar_ne _ _ _ _ h.1]

theorem getVar_applyAll_of_nodup (l : List (String × String)) (env : Env) (k v : String)
    (hnd : (l.map Prod.fst).Nodup) (hm : (k, v) ∈ l) :
    getVar (applyAll env l) k = some v := by
  induction l generalizing env with
  | nil => cases hm
  | cons p rest ih =>
      obtain ⟨a, b⟩ := p
      rw [applyAll_cons]
      simp only [List.map_cons, List.nodup_cons] at hnd
      rcases List.mem_cons.mp hm with he | hr
      · rw [Prod.mk.injEq] at he
        obtain ⟨hk, hv⟩ := he
        subst hk
        subst hv
        rw [getVar_applyAll_not_mem _ _ _ hnd.1, getVar_setVar_self]
      · exact ih _ hnd.2 hr

theorem getVar_applyAll_indep (l : List (String × String)) (env1 env2 : Env) (k : String)
    (h : k ∈ l.map Prod.fst) :
    getVar (applyAll env1 l) k = getVar (applyAll env2 l) k := by
  induction l generalizing env1 env2 with
  | nil => simp [applyAll] at h
  | cons p rest ih =>
      rw [applyAll_cons, applyAll_cons]
      by_cases hk : k ∈ rest.map Prod.fst
      · exact ih _ _ hk
      · have hkp : k = p.1 := by
          simp only [List.map_cons, List.mem_cons] at h
          exact h.resolve_right hk
        subst hkp
        rw [getVar_applyAll_not_mem _ _ _ hk, getVar_applyAll_not_mem _ _ _ hk,
          getVar_setVar_self, getVar_setVar_self]

mutual
theorem set_env_vars_eq : ∀ (t : ConfigTree) (pre : String) (env : Env),
    set_env_vars t pre env = applyAll env (flatten t pre)
  | .scalar v, pre, env => by simp [set_env_vars, flatten, applyAll]
  | .mapping kvs, pre, env => by
      simp only [set_env_vars, flatten]
      exact setEnvVarsMap_eq kvs pre env
  | .sequence xs, pre, env => by
      simp only [set_env_vars, flatten]
      exact setEnvVarsSeq_eq xs pre 0 env

theorem setEnvVarsMap_eq : ∀ (kvs : EntryList) (pre : String) (env : Env),
    setEnvVarsMap kvs pre env = applyAll env (flattenMap kvs pre)
  | .nil, _, env => rfl
  | .cons k v rest, pre, env => by
      simp only [setEnvVarsMap, flattenMap]
      rw [applyAll_append, ← set_env_vars_eq v _ env, ← setEnvVarsMap_eq rest pre _]

theorem setEnvVarsSeq_eq : ∀ (xs : TreeList) (pre : String) (i : Nat) (env : Env),
    setEnvVarsSeq xs pre i env = applyAll env (flattenSeq xs pre i)
  | .nil, _, _, env => rfl
  | .cons x rest, pre, i, env => by
      simp only [setEnvVarsSeq, flattenSeq]
      rw [applyAll_append, ← set_env_vars_eq x _ env, ← setEnvVarsSeq_eq rest pre (i + 1) _]
end

mutual
/-- The scalar leaves of a config tree, each with the list of path
components from the root (upper-cased mapping keys, stringified sequence
indices, in traversal order) and its stringified value.  This is the
specification-side description of §3 of the spec. -/
def leaves : ConfigTree → List (List String × String)
  | .scalar v => [([], pyStrOf v)]
  | .mapping kvs => leavesMap kvs
  | .sequence xs => leavesSeq xs 0

/-- Leaves contributed by a mapping node's entries. -/
def leavesMap : EntryList → List (List String × String)
  | .nil => []
  | .cons k v rest =>
      (leaves v).map (fun l => (pyUpper k :: l.1, l.2)) ++ leavesMap rest

/-- Leaves contributed by a sequence node's elements. -/
def leavesSeq : TreeList → Nat → List (List String × String)
  | .nil, _ => []
  | .cons x rest, i =>
      (leaves x).map (fun l => (toString i :: l.1, l.2)) ++ leavesSeq rest (i + 1)
end

/-- The flattened environment-variable name of a leaf whose path components
are `comps`, under running prefix `pre`: the components are joined onto the
prefix left to right, inserting an underscore before each component except
onto an empty prefix. -/
def leafKey (pre : String) (comps : List String) : String :=
  comps.foldl extendKey pre

mutual
theorem flatten_eq_leaves : ∀ (t : ConfigTree) (pre : String),
    flatten t pre = (leaves t).map (fun l => (leafKey pre l.1, l.2))
  | .scalar v, pre => by simp [flatten, leaves, leafKey]
  | .mapping kvs, pre => by
      simp only [flatten, leaves]
      exact flattenMap_eq_leaves kvs pre
  | .sequence xs, pre => by
      simp only [flatten, leaves]
      exact flattenSeq_eq_leaves xs pre 0

theorem flattenMap_eq_leaves : ∀ (kvs : EntryList) (pre : String),
    flattenMap kvs pre = (leavesMap kvs).map (fun l => (leafKey pre l.1, l.2))
  | .nil, _ => rfl
  | .cons k v rest, pre => by
      simp only [flattenMap, leavesMap, List.map_append, List.map_map,
        flatten_eq_leaves v, flattenMap_eq_leaves rest pre]
      rfl

theorem flattenSeq_eq_leaves : ∀ (xs : TreeList) (pre : String) (i : Nat),
    flattenSeq xs pre i = (leavesSeq xs i).map (fun l => (leafKey pre l.1, l.2))
  | .nil, _, _ => rfl
  | .cons x rest, pre, i => by
      simp only [flattenSeq, leavesSeq, List.map_append, List.map_map,
        flatten_eq_leaves x, flattenSeq_eq_leaves rest pre (i + 1)]
      rfl
end

/-- True when the root of the tree is a mapping or a sequence (the shape a
well-formed YAML config file has). -/
def nonScalarRoot : ConfigTree → Bool
  | .scalar _ => false
  | .mapping _ => true
  | .sequence _ => true

/-- The state of the logger object passed to `load_config`: its effective
numeric level and how many times `logger.error` has been called on it. -/
structure LoggerState where
  level : Nat
  errors : Nat
deriving DecidableEq, Repr

/-- The state `load_config` acts on: the process environment and the logger
it reports through. -/
structure SetupState where
  env : Env
  logger : LoggerState
deriving DecidableEq, Repr

/-- The three possible outcomes of `os.path.exists` plus `yaml.safe_load`
on the config path: the file is missing, it exists but raises
`yaml.YAMLError`, or it parses to a tree. -/
inductive FileContent where
  | missing
  | invalid
  | valid (data : ConfigTree)
deriving DecidableEq, Repr

/-- The level-name table of Python `logging` (`logging._nameToLevel`),
which `Logger.setLevel` consults for string arguments; an unknown name
raises `ValueError`. -/
def levelNum : String → Option Nat
  | "CRITICAL" => some 50
  | "FATAL" => some 50
  | "ERROR" => some 40
  | "WARN" => some 30
  | "WARNING" => some 30
  | "INFO" => some 20
  | "DEBUG" => some 10
  | "NOTSET" => some 0
  | _ => none

/-- src/python/setup.py lines 153-189, `load_config(path_to_config, logger)`:
if the file is missing, set `FIRST_RUN` to `"True"` and fail; otherwise set
`FIRST_RUN` to `"False"`; on a parse error report it and fail; on success
flatten the tree with `set_env_vars`, then, if `LOGGING_LEVEL` is now a
non-empty environment value, apply it with `logger.setLevel`, reporting an
error and failing when the name is invalid. -/
def load_config (file : FileContent) (st : SetupState) : Bool × SetupState :=
  match file with
  | .missing => (false, { st with env := setVar st.env "FIRST_RUN" "True" })
  | .invalid =>
      (false, { env := setVar st.env "FIRST_RUN" "False",
                logger := { st.logger with errors := st.logger.errors + 1 } })
  | .valid data =>
      let env2 := set_env_vars data "" (setVar st.env "FIRST_RUN" "False")
      match getVar env2 "LOGGING_LEVEL" with
      | none => (true, { st with env := env2 })
      | some s =>
          if s = "" then (true, { st with env := env2 })
          else
            match levelNum s with
            | some n => (true, { env := env2, logger := { st.logger with level := n } })
            | none =>
                (false, { env := env2,
                          logger := { st.logger with errors := st.logger.errors + 1 } })

/-- A log record as the filter sees it: the logger name and the numeric
level. -/
structure LogRecord where
  name : String
  levelno : Nat
deriving DecidableEq, Repr

/-- src/python/logger_config.py lines 51-55 and src/logger_config.py lines
24-28, `LoggingFilter.filter(self, record)`: return `False` when
`record.name` is in the configured exclusion list, `True` otherwise. -/
def LoggingFilter.filter (excluded : List String) (record : LogRecord) : Bool :=
  if record.name ∈ excluded then false else true

/-- The two kinds of formatter the logging configs install: the
color-capable `ColoredFormatter` or the plain `logging.Formatter`. -/
inductive FormatterKind where
  | colored
  | plain
deriving DecidableEq, Repr

/-- Which formatter kind each sink of a `LOGGING_CONFIG` dictionary ends up
with: the `default` (console) handler's formatter and the `file` handler's
formatter. -/
structure SinkFormatters where
  console : FormatterKind
  file : FormatterKind
deriving DecidableEq, Repr

/-- src/python/logger_config.py lines 88-128, `LOGGING_CONFIG`: the
`colored` formatter entry is `ColoredFormatter` exactly when
`os.environ.get("LOGGING_COLORED") == "True"` and plain `logging.Formatter`
otherwise; the console handler uses `colored`, the file handler uses the
plain `standard` entry. -/
def LOGGING_CONFIG_formatters (env : Env) : SinkFormatters :=
  { console := if getVar env "LOGGING_COLORED" = some "True"
      then FormatterKind.colored else FormatterKind.plain,
    file := FormatterKind.plain }

/-- src/logger_config.py lines 48-88, `LOGGING_CONFIG` of the root variant:
the `colored` formatter entry is unconditionally `ColoredFormatter`; the
console handler uses it, the file handler uses the plain `standard`
entry.  This variant never consults the environment. -/
def LOGGING_CONFIG_root_formatters : SinkFormatters :=
  { console := FormatterKind.colored, file := FormatterKind.plain }

/-- The root logger's state as `set_log_level` sees it. -/
structure RootLoggerState where
  rootLevel : Nat
deriving DecidableEq, Repr

/-- src/python/logger_config.py lines 137-141, `set_log_level(logger,
level)`: the body is `logging.getLogger().setLevel(logging.INFO)`
(`logging.INFO = 20`); both parameters are unused. -/
def set_log_level {A : Type} {B : Type} (logger : A) (level : B)
    (st : RootLoggerState) : RootLoggerState :=
  { st with rootLevel := 20 }

/-- A small config with a mapping root, a nested sequence, and collision-free
keys, used as a concrete instance for the witnesses. -/
def sampleTree : ConfigTree :=
  .mapping (.cons "a" (.scalar (.pyInt 1))
    (.cons "b" (.sequence (.cons (.scalar (.pyBool true)) .nil)) .nil))

/-- A config whose two distinct dict keys `"a"` and `"A"` upper-case to the
same flattened name `"A"`. -/
def collidingTree : ConfigTree :=
  .mapping (.cons "a" (.scalar (.pyInt 1))
    (.cons "A" (.scalar (.pyInt 2)) .nil))

/-- C1 counterexample: the claim fails on key collisions.  In
`collidingTree` the leaf reached through key `"a"` has derived flattened
key `"A"` and stringified value `"1"`, but after `set_env_vars` the lookup
of `"A"` returns `"2"` (the value of the later leaf `"A"`), not `"1"`. -/
theorem C1_counterexample :
    ("A", "1") ∈ flatten collidingTree "" ∧
    getVar (set_env_vars collidingTree "" []) "A" = some "2" ∧
    some "2" ≠ some "1" := by
  refine ⟨?_, ?_, ?_⟩ <;> decide

/-- C1 (amended): for every config tree with a mapping or sequence root
whose derived leaf keys are pairwise distinct, flattening with
`set_env_vars` and then looking up each scalar leaf by its derived key
returns the stringified original value of that leaf. -/
theorem C1_flatten_lookup (t : ConfigTree) (env : Env) (k v : String)
    (hroot : nonScalarRoot t = true)
    (hnd : ((flatten t "").map Prod.fst).Nodup)
    (hm : (k, v) ∈ flatten t "") :
    getVar (set_env_vars t "" env) k = some v := by
  rw [set_env_vars_eq]
  exact getVar_applyAll_of_nodup _ _ _ _ hnd hm

/-- C1 witness: the amended theorem applied to `sampleTree`, whose leaf
`b[0] = True` flattens to key `"B_0"`. -/
theorem C1_flatten_lookup_witness :
    getVar (set_env_vars sampleTree "" []) "B_0" = some "True" :=
  C1_flatten_lookup sampleTree [] "B_0" "True" (by decide) (by decide) (by decide)

/-- C2 counterexample: the claim fails at the root call, where the running
prefix is empty.  Read literally, appending `"_" + upper("a")` to the empty
running prefix would store the leaf of `mapping [("a", 1)]` under `"_A"`;
the code stores it under `"A"` and sets nothing at `"_A"`. -/
theorem C2_counterexample :
    getVar (set_env_vars (ConfigTree.mapping (EntryList.cons "a"
        (ConfigTree.scalar (PyVal.pyInt 1)) EntryList.nil)) "" []) "A" = some "1" ∧
    getVar (set_env_vars (ConfigTree.mapping (EntryList.cons "a"
        (ConfigTree.scalar (PyVal.pyInt 1)) EntryList.nil)) "" []) "_A" = none := by
  refine ⟨?_, ?_⟩ <;> decide

/-- C2 (amended): `set_env_vars` stores, for every scalar leaf,
`key -> stringified(value)`, where the key extends the running prefix with
one component per path step — the upper-cased key at a mapping node, the
decimal index at a sequence node — inserting `"_"` before the component
exactly when the prefix extended so far is non-empty (so the first
component of the root call carries no leading underscore). -/
theorem C2_key_construction (t : ConfigTree) (pre : String) (env : Env) :
    set_env_vars t pre env =
      applyAll env ((leaves t).map (fun l => (leafKey pre l.1, l.2))) := by
  rw [set_env_vars_eq, flatten_eq_leaves]

/-- C3: for a missing config file, `load_config` sets `FIRST_RUN` to
`"True"` and returns `False`. -/
theorem C3_missing_config (st : SetupState) :
    (load_config .missing st).1 = false ∧
    getVar (load_config .missing st).2.env "FIRST_RUN" = some "True" := by
  exact ⟨rfl, by simp [load_config, getVar_setVar_self]⟩

/-- C4: for an existing config file that fails to parse, `load_config`
returns `False`, and the first-run flag is `"False"`, not `"True"`. -/
theorem C4_invalid_config (st : SetupState) :
    (load_config .invalid st).1 = false ∧
    getVar (load_config .invalid st).2.env "FIRST_RUN" = some "False" ∧
    getVar (load_config .invalid st).2.env "FIRST_RUN" ≠ some "True" := by
  refine ⟨rfl, ?_, ?_⟩ <;> simp [load_config, getVar_setVar_self]

/-- C5: when the environment after flattening carries a non-empty
`LOGGING_LEVEL` value, `load_config` succeeds exactly when the value is a
valid level name; a valid name is applied to the logger's level, and an
invalid one is reported through `logger.error` and the load fails. -/
theorem C5_logging_level (data : ConfigTree) (st : SetupState) (s : String)
    (hs : getVar (set_env_vars data "" (setVar st.env "FIRST_RUN" "False"))
        "LOGGING_LEVEL" = some s)
    (hne : s ≠ "") :
    (load_config (.valid data) st).1 = (levelNum s).isSome ∧
    (∀ n, levelNum s = some n → (load_config (.valid data) st).2.logger.level = n) ∧
    (levelNum s = none →
      (load_config (.valid data) st).2.logger.errors = st.logger.errors + 1) := by
  cases hl : levelNum s with
  | none => simp [load_config, hs, hne, hl]
  | some n => simp [load_config, hs, hne, hl]

/-- The sample config `{logging_level: DEBUG}` used by the C5 witness. -/
def levelTree : ConfigTree :=
  .mapping (.cons "logging_level" (.scalar (.pyStr "DEBUG")) .nil)

/-- An initial state with an empty environment and a fresh logger at level
INFO, used by the witnesses. -/
def st0 : SetupState :=
  { env := [], logger := { level := 20, errors := 0 } }

/-- C5 witness: the theorem applied to the config
`{logging_level: DEBUG}` in the initial state. -/
theorem C5_logging_level_witness :
    (load_config (.valid levelTree) st0).1 = (levelNum "DEBUG").isSome ∧
    (∀ n, levelNum "DEBUG" = some n →
      (load_config (.valid levelTree) st0).2.logger.level = n) ∧
    (levelNum "DEBUG" = none →
      (load_config (.valid levelTree) st0).2.logger.errors = st0.logger.errors + 1) :=
  C5_logging_level levelTree st0 "DEBUG" (by decide) (by decide)

/-- C6: the suppression filter drops a record exactly when its logger name
is in the configured exclusion list, passes it through otherwise, and pays
no attention to the record's level. -/
theorem C6_filter_name_based (excluded : List String) (r : LogRecord) :
    (LoggingFilter.filter excluded r = false ↔ r.name ∈ excluded) ∧
    (LoggingFilter.filter excluded r = true ↔ r.name ∉ excluded) ∧
    (∀ lv : Nat, LoggingFilter.filter excluded ⟨r.name, lv⟩ =
      LoggingFilter.filter excluded r) := by
  by_cases h : r.name ∈ excluded <;>
    simp [LoggingFilter.filter, h]

/-- C7 counterexample: the two LOGGING_CONFIG variants disagree.  In an
environment with no indication of color support (here: empty), the
src/python variant gives the console sink the plain formatter, but the
src/logger_config.py variant still gives it the color-capable formatter —
it never consults the capability flag. -/
theorem C7_counterexample :
    (LOGGING_CONFIG_formatters []).console = FormatterKind.plain ∧
    LOGGING_CONFIG_root_formatters.console = FormatterKind.colored ∧
    FormatterKind.colored ≠ FormatterKind.plain := by
  refine ⟨?_, ?_, ?_⟩ <;> decide

/-- C7 (amended): in src/python/logger_config.py the console sink uses the
color-capable formatter exactly when `LOGGING_COLORED` is `"True"` in the
environment and the plain formatter otherwise, and its file sink always
uses the plain formatter; in src/logger_config.py the console sink always
uses the color-capable formatter and the file sink the plain one. -/
theorem C7_formatter_choice (env : Env) :
    ((LOGGING_CONFIG_formatters env).console = FormatterKind.colored ↔
      getVar env "LOGGING_COLORED" = some "True") ∧
    (LOGGING_CONFIG_formatters env).file = FormatterKind.plain ∧
    LOGGING_CONFIG_root_formatters.console = FormatterKind.colored ∧
    LOGGING_CONFIG_root_formatters.file = FormatterKind.plain := by
  by_cases h : getVar env "LOGGING_COLORED" = some "True" <;>
    simp [LOGGING_CONFIG_formatters, LOGGING_CONFIG_root_formatters, h]

/-- C8: flattening is deterministic — the value `set_env_vars` leaves at
each flattened key depends only on the tree (and prefix), not on the
environment the run starts from; hence two runs on the same tree, in
whatever ambient state, agree on every flattened key, and the key set
itself is the fixed list `flatten t pre`. -/
theorem C8_deterministic (t : ConfigTree) (pre : String) (env1 env2 : Env)
    (k : String) (h : k ∈ (flatten t pre).map Prod.fst) :
    getVar (set_env_vars t pre env1) k = getVar (set_env_vars t pre env2) k := by
  rw [set_env_vars_eq, set_env_vars_eq]
  exact getVar_applyAll_indep _ _ _ _ h

/-- C8 witness: two runs on `sampleTree` from different starting
environments agree at the flattened key `"A"`. -/
theorem C8_deterministic_witness :
    getVar (set_env_vars sampleTree "" []) "A" =
      getVar (set_env_vars sampleTree "" [("A", "9")]) "A" :=
  C8_deterministic sampleTree "" [] [("A", "9")] "A" (by decide)

/-- C9: when the parsed config carries an invalid non-empty
`LOGGING_LEVEL`, `load_config` fails but the environment it returns is
exactly the flattened one — every variable written by `set_env_vars`
remains set; nothing is rolled back. -/
theorem C9_no_rollback (data : ConfigTree) (st : SetupState) (s : String)
    (hs : getVar (set_env_vars data "" (setVar st.env "FIRST_RUN" "False"))
        "LOGGING_LEVEL" = some s)
    (hne : s ≠ "") (hinv : levelNum s = none) :
    (load_config (.valid data) st).1 = false ∧
    (load_config (.valid data) st).2.env =
      set_env_vars data "" (setVar st.env "FIRST_RUN" "False") := by
  simp [load_config, hs, hne, hinv]

/-- The config `{logging_level: LOUD, a: 1}` with an invalid level name,
used by the C9 witness. -/
def badLevelTree : ConfigTree :=
  .mapping (.cons "logging_level" (.scalar (.pyStr "LOUD"))
    (.cons "a" (.scalar (.pyInt 1)) .nil))

/-- C9 witness: the theorem applied to `badLevelTree` in the initial state;
in particular the flattened variable `A = 1` survives the failed load. -/
theorem C9_no_rollback_witness :
    (load_config (.valid badLevelTree) st0).1 = false ∧
    (load_config (.valid badLevelTree) st0).2.env =
      set_env_vars badLevelTree "" (setVar st0.env "FIRST_RUN" "False") :=
  C9_no_rollback badLevelTree st0 "LOUD" (by decide) (by decide) (by decide)

/-- C10: `set_log_level` ignores both of its parameters — any two calls on
the same state agree, whatever the arguments and even their types — and it
always sets the root logger's level to INFO (20). -/
theorem C10_set_log_level_constant {A B A2 B2 : Type} (l1 : A) (v1 : B)
    (l2 : A2) (v2 : B2) (st : RootLoggerState) :
    set_log_level l1 v1 st = set_log_level l2 v2 st ∧
    (set_log_level l1 v1 st).rootLevel = 20 := by
  exact ⟨rfl, rfl⟩
